import Mathlib

/-!
Verification of the client-side real-time collaboration core of the tasker
repository: the wire envelope codec (`JSON.stringify` / `JSON.parse` as used by
the WebSocket clients), the `GlobalWebSocketClient` and `BoardWebSocketClient`
classes of `src/frontend/src/lib-custom/global-websocket.ts`, and the
`handleMessage` dispatch of `src/frontend/src/contexts/BoardCollaborationContext.tsx`.
-/

set_option maxHeartbeats 1000000

/-! ## JSON values

`JsValue` models the JavaScript values that travel over the wire: the envelope
objects built by the clients and decoded from received frames.  Numbers are
modelled as integers (the envelopes' numeric fields, e.g. positions, are
integral); `null`, booleans, strings, arrays and objects are as in JS. -/

inductive JsValue : Type where
  | null : JsValue
  | bool : Bool → JsValue
  | num : Int → JsValue
  | str : String → JsValue
  | arr : List JsValue → JsValue
  | obj : List (String × JsValue) → JsValue
deriving Repr

namespace JsValue

/-- The left curly brace character (code point 123). -/
def lb : Char := Char.ofNat 123

/-- The right curly brace character (code point 125). -/
def rb : Char := Char.ofNat 125

/-- Decimal digit character for a digit value. -/
def digitChar (d : Nat) : Char := Char.ofNat (48 + d)

/-- Is this character a decimal digit? -/
def isDig (c : Char) : Bool := 48 ≤ c.toNat && c.toNat ≤ 57

/-- Decimal digits of a natural number, most significant first,
as `JSON.stringify` prints an integral number. -/
def natChars (m : Nat) : List Char :=
  if m = 0 then [digitChar 0] else (Nat.digits 10 m).reverse.map digitChar

/-- Decimal rendering of an integer, as `JSON.stringify` prints it. -/
def intChars (n : Int) : List Char :=
  if n < 0 then '-' :: natChars n.natAbs else natChars n.natAbs

/-- String-body escaping performed by `JSON.stringify`: quote and backslash
are escaped; other characters are emitted verbatim. -/
def escChar (c : Char) : List Char :=
  if c = '"' then ['\\', '"']
  else if c = '\\' then ['\\', '\\']
  else [c]

/-- Escape a whole string body. -/
def escChars : List Char → List Char
  | [] => []
  | c :: cs => escChar c ++ escChars cs

mutual

/-- `JSON.stringify` on a `JsValue` (character list form). -/
def encodeChars : JsValue → List Char
  | .null => 'n' :: 'u' :: 'l' :: ['l']
  | .bool true => 't' :: 'r' :: 'u' :: ['e']
  | .bool false => 'f' :: 'a' :: 'l' :: 's' :: ['e']
  | .num n => intChars n
  | .str s => '"' :: (escChars s.data ++ ['"'])
  | .arr [] => ['[', ']']
  | .arr (v :: vs) => '[' :: (encodeChars v ++ encodeTail vs ++ [']'])
  | .obj [] => [lb, rb]
  | .obj (f :: fs) => lb :: (encodeEntry f ++ encodeETail fs ++ [rb])

/-- One `"key":value` member of an object. -/
def encodeEntry : String × JsValue → List Char
  | (k, v) => '"' :: (escChars k.data ++ '"' :: ':' :: encodeChars v)

/-- Remaining array items, each preceded by a comma. -/
def encodeTail : List JsValue → List Char
  | [] => []
  | v :: vs => ',' :: (encodeChars v ++ encodeTail vs)

/-- Remaining object members, each preceded by a comma. -/
def encodeETail : List (String × JsValue) → List Char
  | [] => []
  | f :: fs => ',' :: (encodeEntry f ++ encodeETail fs)

end

/-- `JSON.stringify`, producing the wire string. -/
def encode (v : JsValue) : String := String.mk (encodeChars v)

/-! ### Size measures used as parser fuel bounds -/

mutual

/-- Structural size of a value (parser fuel bound). -/
def jsize : JsValue → Nat
  | .null => 1
  | .bool _ => 1
  | .num _ => 1
  | .str _ => 1
  | .arr vs => jsizeT vs + 1
  | .obj fs => jsizeF fs + 1

/-- Size of an array tail. -/
def jsizeT : List JsValue → Nat
  | [] => 0
  | v :: vs => jsize v + jsizeT vs + 1

/-- Size of an object tail. -/
def jsizeF : List (String × JsValue) → Nat
  | [] => 0
  | (_, v) :: fs => jsize v + jsizeF fs + 1

end

/-! ### Well-formedness

`JSON.parse` rejects raw control characters inside string literals, and
`JSON.stringify` escapes them with `\u` sequences we do not model; a
well-formed value has no control characters in its strings. -/

/-- No control characters in a string body. -/
def strOk (s : String) : Bool := s.data.all fun c => 32 ≤ c.toNat

mutual

/-- Well-formed value: every string it contains is control-character free. -/
def wf : JsValue → Bool
  | .null => true
  | .bool _ => true
  | .num _ => true
  | .str s => strOk s
  | .arr vs => wfT vs
  | .obj fs => wfF fs

/-- Well-formedness of an array tail. -/
def wfT : List JsValue → Bool
  | [] => true
  | v :: vs => wf v && wfT vs

/-- Well-formedness of an object tail. -/
def wfF : List (String × JsValue) → Bool
  | [] => true
  | (k, v) :: fs => strOk k && wf v && wfF fs

end

/-! ### Parser (`JSON.parse` on the strings the clients exchange) -/

/-- Parse a string body up to the closing quote, undoing `escChar`;
rejects raw control characters and unsupported escapes. -/
def parseStringBody (cs : List Char) : Option (List Char × List Char) :=
  match cs with
  | [] => none
  | c :: r =>
    if c = '"' then some ([], r)
    else if c = '\\' then
      match r with
      | [] => none
      | e :: r' =>
        if e = '"' ∨ e = '\\' then
          match parseStringBody r' with
          | some (s, rest) => some (e :: s, rest)
          | none => none
        else none
    else if c.toNat < 32 then none
    else
      match parseStringBody r with
      | some (s, rest) => some (c :: s, rest)
      | none => none

/-- Parse a nonempty run of decimal digits into a natural number. -/
def parseDigits (cs : List Char) : Option (Nat × List Char) :=
  let ds := cs.takeWhile isDig
  if ds.isEmpty then none
  else some (ds.foldl (fun a c => a * 10 + (c.toNat - 48)) 0, cs.dropWhile isDig)

/-- Consume an expected literal character sequence from the input. -/
def expectChars : List Char → List Char → Option (List Char)
  | [], cs => some cs
  | _ :: _, [] => none
  | p :: ps, c :: cs => if c = p then expectChars ps cs else none

mutual

/-- Parse one JSON value from the front of the input. -/
def parseValue : Nat → List Char → Option (JsValue × List Char)
  | 0, _ => none
  | _ + 1, [] => none
  | fuel + 1, c :: r =>
    if c = 'n' then (expectChars ['u', 'l', 'l'] r).map fun r' => (.null, r')
    else if c = 't' then (expectChars ['r', 'u', 'e'] r).map fun r' => (.bool true, r')
    else if c = 'f' then (expectChars ['a', 'l', 's', 'e'] r).map fun r' => (.bool false, r')
    else if c = '"' then (parseStringBody r).map fun p => (.str (String.mk p.1), p.2)
    else if c = '-' then (parseDigits r).map fun p => (.num (-(p.1 : Int)), p.2)
    else if isDig c then (parseDigits (c :: r)).map fun p => (.num ((p.1 : Nat) : Int), p.2)
    else if c = '[' then
      r.head?.bind fun d =>
        if d = ']' then some (.arr [], r.tail)
        else
          (parseValue fuel r).bind fun p =>
            (parseArrTail fuel p.2).map fun q => (.arr (p.1 :: q.1), q.2)
    else if c = lb then
      r.head?.bind fun d =>
        if d = rb then some (.obj [], r.tail)
        else
          (parseEntry fuel r).bind fun p =>
            (parseObjTail fuel p.2).map fun q => (.obj (p.1 :: q.1), q.2)
    else none
termination_by structural fuel _ => fuel

/-- Parse the rest of an array: a close bracket, or comma-separated items. -/
def parseArrTail : Nat → List Char → Option (List JsValue × List Char)
  | 0, _ => none
  | _ + 1, [] => none
  | fuel + 1, c :: r =>
    if c = ']' then some ([], r)
    else if c = ',' then
      (parseValue fuel r).bind fun p =>
        (parseArrTail fuel p.2).map fun q => (p.1 :: q.1, q.2)
    else none
termination_by structural fuel _ => fuel

/-- Parse one `"key":value` member of an object. -/
def parseEntry : Nat → List Char → Option ((String × JsValue) × List Char)
  | 0, _ => none
  | _ + 1, [] => none
  | fuel + 1, c :: r =>
    if c = '"' then
      (parseStringBody r).bind fun p =>
        (expectChars [':'] p.2).bind fun rest' =>
          (parseValue fuel rest').map fun q => ((String.mk p.1, q.1), q.2)
    else none
termination_by structural fuel _ => fuel

/-- Parse the rest of an object: a close brace, or comma-separated members. -/
def parseObjTail : Nat → List Char → Option (List (String × JsValue) × List Char)
  | 0, _ => none
  | _ + 1, [] => none
  | fuel + 1, c :: r =>
    if c = rb then some ([], r)
    else if c = ',' then
      (parseEntry fuel r).bind fun p =>
        (parseObjTail fuel p.2).map fun q => (p.1 :: q.1, q.2)
    else none
termination_by structural fuel _ => fuel

end

/-- `JSON.parse` on a received frame: parse one value consuming the whole
input; any malformed frame yields `none` (the typed decode error). -/
def decode (s : String) : Option JsValue :=
  match parseValue (s.data.length + 1) s.data with
  | some (v, []) => some v
  | _ => none

/-! ### Round-trip lemmas: digits -/

theorem digitChar_toNat (d : Nat) (h : d < 10) : (digitChar d).toNat = 48 + d := by
  interval_cases d <;> decide

theorem isDig_digitChar (d : Nat) (h : d < 10) : isDig (digitChar d) = true := by
  simp [isDig, digitChar_toNat d h]
  omega

theorem natChars_ne_nil (m : Nat) : natChars m ≠ [] := by
  unfold natChars
  split
  · simp
  · next h =>
    simp [Nat.digits_ne_nil_iff_ne_zero, h]

theorem natChars_all_dig (m : Nat) : ∀ c ∈ natChars m, isDig c = true := by
  intro c hc
  unfold natChars at hc
  split at hc
  · simp at hc
    subst hc
    decide
  · simp at hc
    obtain ⟨d, hd, rfl⟩ := hc
    exact isDig_digitChar d (Nat.digits_lt_base (by omega) hd)

theorem foldl_digitChars (l : List Nat) (hl : ∀ d ∈ l, d < 10) (a : Nat) :
    (l.map digitChar).foldl (fun a c => a * 10 + (c.toNat - 48)) a
      = a * 10 ^ l.length + Nat.ofDigits 10 l.reverse := by
  induction l generalizing a with
  | nil => simp [Nat.ofDigits]
  | cons d rest ih =>
    have hd : d < 10 := hl d (by simp)
    have hrest : ∀ x ∈ rest, x < 10 := fun x hx => hl x (by simp [hx])
    simp only [List.map_cons, List.foldl_cons, List.reverse_cons, List.length_cons]
    rw [ih hrest, digitChar_toNat d hd, Nat.ofDigits_append]
    simp [Nat.ofDigits]
    ring

theorem foldl_natChars (m : Nat) :
    (natChars m).foldl (fun a c => a * 10 + (c.toNat - 48)) 0 = m := by
  unfold natChars
  split
  · next h => subst h; decide
  · rw [foldl_digitChars _ (fun d hd => Nat.digits_lt_base (by omega) (List.mem_reverse.mp hd))]
    simp [Nat.ofDigits_digits]

/-- The next character, if any, is not a decimal digit (so a digit run that
ends right before `rest` is maximal). -/
def noDigitHead : List Char → Prop
  | [] => True
  | c :: _ => isDig c = false

theorem takeWhile_digits (l r : List Char) (hl : ∀ c ∈ l, isDig c = true)
    (hr : noDigitHead r) : (l ++ r).takeWhile isDig = l ∧ (l ++ r).dropWhile isDig = r := by
  induction l with
  | nil =>
    simp only [List.nil_append]
    cases r with
    | nil => simp
    | cons c r' =>
      simp only [noDigitHead] at hr
      simp [List.takeWhile_cons, List.dropWhile_cons, hr]
  | cons c l' ih =>
    have hc : isDig c = true := hl c (by simp)
    have ih' := ih (fun x hx => hl x (by simp [hx]))
    simp [List.takeWhile_cons, List.dropWhile_cons, hc, ih'.1, ih'.2]

theorem parseDigits_spec (m : Nat) (rest : List Char) (hrest : noDigitHead rest) :
    parseDigits (natChars m ++ rest) = some (m, rest) := by
  have h := takeWhile_digits (natChars m) rest (natChars_all_dig m) hrest
  simp only [parseDigits, h.1, h.2]
  rw [if_neg (by simp [List.isEmpty_iff, natChars_ne_nil m])]
  rw [foldl_natChars]

/-! ### Round-trip lemmas: strings -/

theorem parseStringBody_esc (s : List Char) (hs : ∀ c ∈ s, 32 ≤ c.toNat)
    (rest : List Char) :
    parseStringBody (escChars s ++ '"' :: rest) = some (s, rest) := by
  induction s with
  | nil =>
    rw [escChars, List.nil_append, parseStringBody.eq_def]
    simp
  | cons c cs ih =>
    have hc : 32 ≤ c.toNat := hs c (by simp)
    have ih' := ih (fun x hx => hs x (by simp [hx]))
    by_cases hq : c = '"'
    · subst hq
      simp only [escChars, escChar, if_pos rfl, List.cons_append, List.append_assoc]
      rw [parseStringBody.eq_def]
      simp [ih']
    · by_cases hb : c = '\\'
      · subst hb
        rw [escChars, escChar, if_neg (by decide), if_pos rfl]
        simp only [List.cons_append, List.nil_append, List.append_assoc]
        rw [parseStringBody.eq_def]
        simp [ih']
      · rw [escChars, escChar, if_neg hq, if_neg hb]
        simp only [List.cons_append, List.nil_append]
        rw [parseStringBody.eq_def]
        simp only [if_neg hq, if_neg hb, if_neg (by omega : ¬ c.toNat < 32)]
        rw [ih']

/-! ### Head characters of encodings -/

theorem isDig_ne (c : Char) (h : isDig c = true) :
    c ≠ 'n' ∧ c ≠ 't' ∧ c ≠ 'f' ∧ c ≠ '"' ∧ c ≠ '-' ∧ c ≠ '[' ∧ c ≠ lb := by
  refine ⟨?_, ?_, ?_, ?_, ?_, ?_, ?_⟩ <;>
    · rintro rfl
      exact absurd h (by decide)

/-- Every encoded value is nonempty and starts with a character other than
a close bracket or close brace. -/
theorem encodeChars_head (v : JsValue) :
    ∃ c cs, encodeChars v = c :: cs ∧ c ≠ ']' ∧ c ≠ rb := by
  cases v with
  | null => exact ⟨'n', _, rfl, by decide, by decide⟩
  | bool b =>
    cases b
    · exact ⟨'f', _, rfl, by decide, by decide⟩
    · exact ⟨'t', _, rfl, by decide, by decide⟩
  | num n =>
    by_cases h : n < 0
    · exact ⟨'-', natChars n.natAbs, by simp [encodeChars, intChars, h], by decide, by decide⟩
    · obtain ⟨c, cs, hc⟩ := List.exists_cons_of_ne_nil (natChars_ne_nil n.natAbs)
      have hdig : isDig c = true := natChars_all_dig n.natAbs c (by simp [hc])
      have h1 : c ≠ ']' := by rintro rfl; exact absurd hdig (by decide)
      have h2 : c ≠ rb := by rintro rfl; exact absurd hdig (by decide)
      exact ⟨c, cs, by simp [encodeChars, intChars, h, hc], h1, h2⟩
  | str s => exact ⟨'"', _, rfl, by decide, by decide⟩
  | arr vs =>
    cases vs
    · exact ⟨'[', _, rfl, by decide, by decide⟩
    · exact ⟨'[', _, rfl, by decide, by decide⟩
  | obj fs =>
    cases fs
    · exact ⟨lb, _, rfl, by decide, by decide⟩
    · exact ⟨lb, _, rfl, by decide, by decide⟩

/-- The tail of an array or object encoding starts with a comma or the
closing delimiter, never a digit. -/
theorem noDigitHead_encodeTail (vs : List JsValue) (close : Char)
    (hclose : isDig close = false) (rest : List Char) :
    noDigitHead (encodeTail vs ++ close :: rest) := by
  cases vs with
  | nil => simp [encodeTail, noDigitHead, hclose]
  | cons v vs' =>
    simp only [encodeTail, List.cons_append, noDigitHead]
    decide

theorem noDigitHead_encodeETail (fs : List (String × JsValue)) (close : Char)
    (hclose : isDig close = false) (rest : List Char) :
    noDigitHead (encodeETail fs ++ close :: rest) := by
  cases fs with
  | nil => simp [encodeETail, noDigitHead, hclose]
  | cons f fs' =>
    simp only [encodeETail, List.cons_append, noDigitHead]
    decide

theorem jsize_pos (v : JsValue) : 1 ≤ jsize v := by
  cases v <;> simp [jsize]

/-! ### The parser inverts the encoder -/

/-- Parsing what the encoder emitted, followed by arbitrary non-digit-leading
text, returns exactly the encoded value and the leftover text — simultaneously
for values, array tails, object members and object tails, by induction on the
parser fuel. -/
theorem parse_encode (fuel : Nat) :
    (∀ v rest, jsize v ≤ fuel → noDigitHead rest → wf v = true →
        parseValue fuel (encodeChars v ++ rest) = some (v, rest))
    ∧ (∀ vs rest, jsizeT vs < fuel → wfT vs = true →
        parseArrTail fuel (encodeTail vs ++ ']' :: rest) = some (vs, rest))
    ∧ (∀ k v rest, jsize v < fuel → noDigitHead rest → strOk k = true → wf v = true →
        parseEntry fuel (encodeEntry (k, v) ++ rest) = some ((k, v), rest))
    ∧ (∀ fs rest, jsizeF fs < fuel → wfF fs = true →
        parseObjTail fuel (encodeETail fs ++ rb :: rest) = some (fs, rest)) := by
  induction fuel with
  | zero =>
    refine ⟨?_, ?_, ?_, ?_⟩
    · intro v rest hsz _ _
      have := jsize_pos v
      omega
    · intro vs rest hsz _
      omega
    · intro k v rest hsz _ _ _
      omega
    · intro fs rest hsz _
      omega
  | succ f ih =>
    obtain ⟨ihV, ihT, ihE, ihO⟩ := ih
    refine ⟨?_, ?_, ?_, ?_⟩
    · intro v rest hsz hrest hwf
      cases v with
      | null =>
        rw [encodeChars]
        simp only [List.cons_append, List.nil_append]
        rw [parseValue.eq_def]
        simp [expectChars]
      | bool b =>
        cases b
        · rw [encodeChars]
          simp only [List.cons_append, List.nil_append]
          rw [parseValue.eq_def]
          simp [expectChars]
        · rw [encodeChars]
          simp only [List.cons_append, List.nil_append]
          rw [parseValue.eq_def]
          simp [expectChars]
      | num n =>
        by_cases hn : n < 0
        · rw [encodeChars, intChars, if_pos hn]
          simp only [List.cons_append]
          rw [parseValue.eq_def]
          simp only [if_neg (by decide : ¬ ('-' : Char) = 'n'),
            if_neg (by decide : ¬ ('-' : Char) = 't'),
            if_neg (by decide : ¬ ('-' : Char) = 'f'),
            if_neg (by decide : ¬ ('-' : Char) = '"'), if_pos rfl, if_true]
          rw [parseDigits_spec n.natAbs rest hrest]
          simp only [Option.map_some']
          have h2 : -(n.natAbs : Int) = n := by omega
          rw [h2]
        · rw [encodeChars, intChars, if_neg hn]
          obtain ⟨c0, cs0, hc0⟩ := List.exists_cons_of_ne_nil (natChars_ne_nil n.natAbs)
          have hdig : isDig c0 = true := natChars_all_dig n.natAbs c0 (by simp [hc0])
          obtain ⟨g1, g2, g3, g4, g5, g6, g7⟩ := isDig_ne c0 hdig
          rw [hc0]
          simp only [List.cons_append]
          rw [parseValue.eq_def]
          simp only [if_neg g1, if_neg g2, if_neg g3, if_neg g4, if_neg g5, if_pos hdig,
            if_true]
          have hin : c0 :: (cs0 ++ rest) = natChars n.natAbs ++ rest := by
            rw [hc0]
            rfl
          rw [hin, parseDigits_spec n.natAbs rest hrest]
          simp only [Option.map_some']
          have h2 : ((n.natAbs : Nat) : Int) = n := by omega
          rw [h2]
      | str s =>
        rw [encodeChars]
        simp only [List.cons_append, List.append_assoc, List.nil_append]
        rw [parseValue.eq_def]
        simp only [if_neg (by decide : ¬ ('"' : Char) = 'n'),
          if_neg (by decide : ¬ ('"' : Char) = 't'),
          if_neg (by decide : ¬ ('"' : Char) = 'f'), if_pos rfl, if_true]
        have hs : ∀ c ∈ s.data, 32 ≤ c.toNat := by
          simpa [wf, strOk, List.all_eq_true] using hwf
        rw [parseStringBody_esc s.data hs rest]
        simp only [Option.map_some']
      | arr vs =>
        cases vs with
        | nil =>
          rw [encodeChars]
          simp only [List.cons_append, List.nil_append]
          rw [parseValue.eq_def]
          simp only [if_neg (by decide : ¬ ('[' : Char) = 'n'),
            if_neg (by decide : ¬ ('[' : Char) = 't'),
            if_neg (by decide : ¬ ('[' : Char) = 'f'),
            if_neg (by decide : ¬ ('[' : Char) = '"'),
            if_neg (by decide : ¬ ('[' : Char) = '-'),
            if_neg (by decide : ¬ (isDig '[' = true)), if_pos rfl, if_true]
          simp
        | cons v vs =>
          have hsv : jsize v + jsizeT vs + 2 ≤ f + 1 := by
            simpa [jsize, jsizeT] using hsz
          simp only [wf, wfT, Bool.and_eq_true] at hwf
          rw [encodeChars]
          simp only [List.cons_append, List.append_assoc, List.nil_append]
          rw [parseValue.eq_def]
          simp only [if_neg (by decide : ¬ ('[' : Char) = 'n'),
            if_neg (by decide : ¬ ('[' : Char) = 't'),
            if_neg (by decide : ¬ ('[' : Char) = 'f'),
            if_neg (by decide : ¬ ('[' : Char) = '"'),
            if_neg (by decide : ¬ ('[' : Char) = '-'),
            if_neg (by decide : ¬ (isDig '[' = true)), if_pos rfl, if_true]
          obtain ⟨c0, cs0, hc0, hne, hne2⟩ := encodeChars_head v
          have hr : encodeChars v ++ (encodeTail vs ++ ']' :: rest)
              = c0 :: (cs0 ++ (encodeTail vs ++ ']' :: rest)) := by
            rw [hc0]
            rfl
          rw [hr]
          simp only [List.head?_cons, Option.some_bind, if_neg hne]
          rw [← hr]
          rw [ihV v _ (by omega) (noDigitHead_encodeTail vs ']' (by decide) rest) hwf.1]
          simp only [Option.some_bind]
          rw [ihT vs rest (by omega) hwf.2]
          simp
      | obj fs =>
        cases fs with
        | nil =>
          rw [encodeChars]
          simp only [List.cons_append, List.nil_append]
          rw [parseValue.eq_def]
          simp only [if_neg (by decide : ¬ (lb = 'n')), if_neg (by decide : ¬ (lb = 't')),
            if_neg (by decide : ¬ (lb = 'f')), if_neg (by decide : ¬ (lb = '"')),
            if_neg (by decide : ¬ (lb = '-')), if_neg (by decide : ¬ (isDig lb = true)),
            if_neg (by decide : ¬ (lb = '[')), if_pos rfl, if_true]
          simp
        | cons kv fs =>
          obtain ⟨k, v⟩ := kv
          have hsv : jsize v + jsizeF fs + 2 ≤ f + 1 := by
            simpa [jsize, jsizeF] using hsz
          simp only [wf, wfF, Bool.and_eq_true] at hwf
          rw [encodeChars]
          simp only [List.cons_append, List.append_assoc, List.nil_append]
          rw [parseValue.eq_def]
          simp only [if_neg (by decide : ¬ (lb = 'n')), if_neg (by decide : ¬ (lb = 't')),
            if_neg (by decide : ¬ (lb = 'f')), if_neg (by decide : ¬ (lb = '"')),
            if_neg (by decide : ¬ (lb = '-')), if_neg (by decide : ¬ (isDig lb = true)),
            if_neg (by decide : ¬ (lb = '[')), if_pos rfl, if_true]
          have hr : encodeEntry (k, v) ++ (encodeETail fs ++ rb :: rest)
              = '"' :: (escChars k.data ++ '"' :: ':' :: encodeChars v
                  ++ (encodeETail fs ++ rb :: rest)) := by
            rw [encodeEntry]
            simp
          rw [hr]
          simp only [List.head?_cons, Option.some_bind,
            if_neg (by decide : ¬ ('"' : Char) = rb)]
          rw [← hr]
          rw [ihE k v _ (by omega) (noDigitHead_encodeETail fs rb (by decide) rest)
            hwf.1.1 hwf.1.2]
          simp only [Option.some_bind]
          rw [ihO fs rest (by omega) hwf.2]
          simp
    · intro vs rest hsz hwf
      cases vs with
      | nil =>
        rw [encodeTail]
        simp only [List.nil_append]
        rw [parseArrTail.eq_def]
        simp
      | cons v vs =>
        have hsv : jsize v + jsizeT vs + 1 ≤ f := by
          simp only [jsizeT] at hsz
          omega
        simp only [wfT, Bool.and_eq_true] at hwf
        rw [encodeTail]
        simp only [List.cons_append, List.append_assoc]
        rw [parseArrTail.eq_def]
        simp only [if_neg (by decide : ¬ (',' : Char) = ']'), if_pos rfl, if_true]
        rw [ihV v _ (by omega) (noDigitHead_encodeTail vs ']' (by decide) rest) hwf.1]
        simp only [Option.some_bind]
        rw [ihT vs rest (by omega) hwf.2]
        simp
    · intro k v rest hsz hrest hk hwf
      rw [encodeEntry]
      simp only [List.cons_append, List.append_assoc, List.nil_append]
      rw [parseEntry.eq_def]
      simp only [if_pos rfl, if_true]
      have hks : ∀ c ∈ k.data, 32 ≤ c.toNat := by
        simpa [strOk, List.all_eq_true] using hk
      rw [parseStringBody_esc k.data hks (':' :: (encodeChars v ++ rest))]
      simp only [Option.some_bind, expectChars, if_pos rfl, if_true]
      rw [ihV v rest (by omega) hrest hwf]
      simp only [Option.map_some']
    · intro fs rest hsz hwf
      cases fs with
      | nil =>
        rw [encodeETail]
        simp only [List.nil_append]
        rw [parseObjTail.eq_def]
        simp
      | cons kv fs =>
        obtain ⟨k, v⟩ := kv
        have hsv : jsize v + jsizeF fs + 1 ≤ f := by
          simp only [jsizeF] at hsz
          omega
        simp only [wfF, Bool.and_eq_true] at hwf
        rw [encodeETail]
        simp only [List.cons_append, List.append_assoc]
        rw [parseObjTail.eq_def]
        simp only [if_neg (by decide : ¬ (',' = rb)), if_pos rfl, if_true]
        rw [ihE k v _ (by omega) (noDigitHead_encodeETail fs rb (by decide) rest)
          hwf.1.1 hwf.1.2]
        simp only [Option.some_bind]
        rw [ihO fs rest (by omega) hwf.2]
        simp

mutual

theorem jsize_le_len : ∀ v : JsValue, jsize v ≤ (encodeChars v).length
  | .null => by simp [jsize, encodeChars]
  | .bool true => by simp [jsize, encodeChars]
  | .bool false => by simp [jsize, encodeChars]
  | .num n => by
    have h1 : 1 ≤ (natChars n.natAbs).length :=
      List.length_pos.mpr (natChars_ne_nil n.natAbs)
    by_cases hn : n < 0 <;> (simp [jsize, encodeChars, intChars, hn]; try omega)
  | .str s => by simp [jsize, encodeChars]
  | .arr [] => by simp [jsize, jsizeT, encodeChars]
  | .arr (v :: vs) => by
    have h1 := jsize_le_len v
    have h2 := jsizeT_le_len vs
    simp only [jsize, jsizeT, encodeChars, List.length_cons, List.length_append]
    omega
  | .obj [] => by simp [jsize, jsizeF, encodeChars]
  | .obj (kv :: fs) => by
    have h1 := jsizeE_le_len kv
    have h2 := jsizeF_le_len fs
    obtain ⟨k, v⟩ := kv
    simp only [jsize, jsizeF, encodeChars, List.length_cons, List.length_append] at *
    omega

theorem jsizeE_le_len : ∀ kv : String × JsValue, jsize kv.2 + 1 ≤ (encodeEntry kv).length
  | (k, v) => by
    have h1 := jsize_le_len v
    simp only [encodeEntry, List.length_cons, List.length_append]
    omega

theorem jsizeT_le_len : ∀ vs : List JsValue, jsizeT vs ≤ (encodeTail vs).length
  | [] => by simp [jsizeT, encodeTail]
  | v :: vs => by
    have h1 := jsize_le_len v
    have h2 := jsizeT_le_len vs
    simp only [jsizeT, encodeTail, List.length_cons, List.length_append]
    omega

theorem jsizeF_le_len : ∀ fs : List (String × JsValue), jsizeF fs ≤ (encodeETail fs).length
  | [] => by simp [jsizeF, encodeETail]
  | kv :: fs => by
    have h1 := jsizeE_le_len kv
    have h2 := jsizeF_le_len fs
    obtain ⟨k, v⟩ := kv
    simp only [jsizeF, encodeETail, List.length_cons, List.length_append] at *
    omega

end

/-- Decoding the encoding of any well-formed value gives the value back. -/
theorem decode_encode (v : JsValue) (hwf : wf v = true) : decode (encode v) = some v := by
  unfold decode encode
  have hfuel : jsize v ≤ (encodeChars v).length + 1 :=
    le_trans (jsize_le_len v) (by omega)
  have h := (parse_encode ((encodeChars v).length + 1)).1 v [] hfuel trivial hwf
  simp only [List.append_nil] at h
  rw [show (String.mk (encodeChars v)).data = encodeChars v from rfl]
  rw [h]

/-- A wire envelope: a JSON object carrying a string `type` discriminant. -/
def isEnvelope (m : JsValue) : Bool :=
  match m with
  | .obj fs =>
    match fs.lookup "type" with
    | some (.str _) => true
    | _ => false
  | _ => false

end JsValue

/-! ## WebSocket client model

State model of the two client classes in
`src/frontend/src/lib-custom/global-websocket.ts`.  Each class owns an
optional underlying `WebSocket` (`ws`), reconnect bookkeeping fields and an
`isConnecting` flag; the class methods and socket event handlers are modelled
as pure state transformers that also report their observable effect
(frames written, reconnect delay scheduled, handler invocations). -/

/-- `WebSocket.readyState` constants. -/
inductive ReadyState : Type where
  | CONNECTING : ReadyState
  | OPEN : ReadyState
  | CLOSING : ReadyState
  | CLOSED : ReadyState
deriving Repr, DecidableEq, BEq

/-- One underlying browser WebSocket: its ready state and the frames written
to its transport by `send`. -/
structure Socket where
  readyState : ReadyState
  sentFrames : List String
deriving Repr, DecidableEq

/-- The mutable fields shared by `GlobalWebSocketClient` and
`BoardWebSocketClient` (field initializers: no socket, zero reconnect
attempts, `maxReconnectAttempts = 5`, `reconnectDelay = 1000`, not
connecting). -/
structure ClientState where
  ws : Option Socket
  reconnectAttempts : Nat
  maxReconnectAttempts : Nat
  reconnectDelay : Nat
  isConnecting : Bool
deriving Repr, DecidableEq

/-- The observable effect of one `onmessage` event: which decoded messages the
registered `onMessage` handler was invoked with, whether a parse error was
logged, and whether the handler closed the socket (it never does). -/
structure MessageEffect where
  handlerCalls : List JsValue
  errorLogged : Bool
  closedSocket : Bool
deriving Repr

namespace GlobalWebSocketClient

/-- Field initializers of the class constructor. -/
def init : ClientState :=
  { ws := none, reconnectAttempts := 0, maxReconnectAttempts := 5,
    reconnectDelay := 1000, isConnecting := false }

/-- `isConnected()`: `this.ws?.readyState === WebSocket.OPEN`. -/
def isConnected (c : ClientState) : Bool :=
  match c.ws with
  | some s => s.readyState = ReadyState.OPEN
  | none => false

/-- `connect()`: returns early when already connecting or connected, else
marks the client connecting and creates a fresh socket.  The second component
reports whether a new `WebSocket` was constructed. -/
def connect (c : ClientState) : ClientState × Bool :=
  if c.isConnecting || isConnected c then (c, false)
  else
    ({ c with isConnecting := true,
              ws := some { readyState := ReadyState.CONNECTING, sentFrames := [] } },
     true)

/-- `ws.onopen` handler: clears `isConnecting` and resets the attempt count. -/
def onopen (c : ClientState) : ClientState :=
  { c with isConnecting := false, reconnectAttempts := 0 }

/-- `scheduleReconnect()`: increments the attempt count and computes
`reconnectDelay * 2 ^ (reconnectAttempts - 1)` for the timer. -/
def scheduleReconnect (c : ClientState) : ClientState × Nat :=
  let c' := { c with reconnectAttempts := c.reconnectAttempts + 1 }
  (c', c.reconnectDelay * 2 ^ (c'.reconnectAttempts - 1))

/-- `ws.onclose` handler: clears `isConnecting`; reconnects unless the close
was normal (1000) or an authentication error (4001) or the attempt budget is
exhausted.  The second component is the scheduled reconnect delay, if any. -/
def onclose (c : ClientState) (code : Nat) : ClientState × Option Nat :=
  let c1 := { c with isConnecting := false }
  if code ≠ 1000 ∧ code ≠ 4001 ∧ c1.reconnectAttempts < c1.maxReconnectAttempts then
    let p := scheduleReconnect c1
    (p.1, some p.2)
  else (c1, none)

/-- `ws.onmessage` handler: `JSON.parse` the frame and pass it to the
registered handler; on a parse error, log and drop the frame. -/
def onmessage (data : String) : MessageEffect :=
  match JsValue.decode data with
  | some m => { handlerCalls := [m], errorLogged := false, closedSocket := false }
  | none => { handlerCalls := [], errorLogged := true, closedSocket := false }

/-- `send(message)`: writes `JSON.stringify(message)` to the transport only
when a socket exists and is `OPEN`; otherwise logs a warning and drops the
message.  The second component reports whether the message was dropped. -/
def send (c : ClientState) (message : JsValue) : ClientState × Bool :=
  match c.ws with
  | some s =>
    if s.readyState = ReadyState.OPEN then
      ({ c with
          ws := some { s with sentFrames := s.sentFrames ++ [JsValue.encode message] } },
       false)
    else (c, true)
  | none => (c, true)

/-- `disconnect()`: closes the socket with code 1000 and clears `ws`. -/
def disconnect (c : ClientState) : ClientState :=
  match c.ws with
  | some _ => { c with ws := none }
  | none => c

end GlobalWebSocketClient

namespace BoardWebSocketClient

/-- Field initializers of the class constructor. -/
def init : ClientState :=
  { ws := none, reconnectAttempts := 0, maxReconnectAttempts := 5,
    reconnectDelay := 1000, isConnecting := false }

/-- `this.ws && this.ws.readyState === WebSocket.OPEN` (connect guard),
also `isConnected()`. -/
def wsOpen (c : ClientState) : Bool :=
  match c.ws with
  | some s => s.readyState = ReadyState.OPEN
  | none => false

/-- `connect()`: returns a resolved promise when already connecting or the
socket is `OPEN`, else marks the client connecting and creates a fresh
socket.  The second component reports whether a new `WebSocket` was
constructed. -/
def connect (c : ClientState) : ClientState × Bool :=
  if c.isConnecting || wsOpen c then (c, false)
  else
    ({ c with isConnecting := true,
              ws := some { readyState := ReadyState.CONNECTING, sentFrames := [] } },
     true)

/-- `ws.onopen` handler: clears `isConnecting` and resets the attempt count. -/
def onopen (c : ClientState) : ClientState :=
  { c with isConnecting := false, reconnectAttempts := 0 }

/-- `scheduleReconnect()`: increments the attempt count and computes
`reconnectDelay * 2 ^ (reconnectAttempts - 1)` for the timer. -/
def scheduleReconnect (c : ClientState) : ClientState × Nat :=
  let c' := { c with reconnectAttempts := c.reconnectAttempts + 1 }
  (c', c.reconnectDelay * 2 ^ (c'.reconnectAttempts - 1))

/-- `ws.onclose` handler: clears `isConnecting`; reconnects unless the close
was normal (1000) or an authentication/authorization error (4001, 4003) or
the attempt budget is exhausted.  The second component is the scheduled
reconnect delay, if any. -/
def onclose (c : ClientState) (code : Nat) : ClientState × Option Nat :=
  let c1 := { c with isConnecting := false }
  if code ≠ 1000 ∧ code ≠ 4001 ∧ code ≠ 4003
      ∧ c1.reconnectAttempts < c1.maxReconnectAttempts then
    let p := scheduleReconnect c1
    (p.1, some p.2)
  else (c1, none)

/-- `ws.onmessage` handler: `JSON.parse` the frame and pass it to the
registered handler; on a parse error, log and drop the frame. -/
def onmessage (data : String) : MessageEffect :=
  match JsValue.decode data with
  | some m => { handlerCalls := [m], errorLogged := false, closedSocket := false }
  | none => { handlerCalls := [], errorLogged := true, closedSocket := false }

/-- `send(message)`: writes `JSON.stringify(message)` to the transport only
when a socket exists and is `OPEN`; otherwise logs a warning and drops the
message.  The second component reports whether the message was dropped. -/
def send (c : ClientState) (message : JsValue) : ClientState × Bool :=
  match c.ws with
  | some s =>
    if s.readyState = ReadyState.OPEN then
      ({ c with
          ws := some { s with sentFrames := s.sentFrames ++ [JsValue.encode message] } },
       false)
    else (c, true)
  | none => (c, true)

/-- `disconnect()`: closes the socket with code 1000 and clears `ws`. -/
def disconnect (c : ClientState) : ClientState :=
  match c.ws with
  | some _ => { c with ws := none }
  | none => c

end BoardWebSocketClient

/-! ## Board collaboration message handler

Model of `handleMessage` in
`src/frontend/src/contexts/BoardCollaborationContext.tsx`: the switch on
`message.type` assigns `window.location.href = '/'` only in the
`board_deleted` case and only when `message.redirect` is truthy; every other
case just logs. -/

namespace BoardCollaborationContext

/-- JavaScript truthiness of an optional property value (`undefined`, `null`,
`false`, `0` and the empty string are falsy). -/
def truthy : Option JsValue → Bool
  | none => false
  | some .null => false
  | some (.bool b) => b
  | some (.num n) => decide (n ≠ 0)
  | some (.str s) => decide (s ≠ "")
  | some (.arr _) => true
  | some (.obj _) => true

/-- Property access `message[k]` on a decoded JSON message object. -/
def getField (m : JsValue) (k : String) : Option JsValue :=
  match m with
  | .obj fs => fs.lookup k
  | _ => none

/-- The navigation performed by `handleMessage`: the target assigned to
`window.location.href`, if any. -/
def handleMessageNav (m : JsValue) : Option String :=
  match getField m "type" with
  | some (.str t) =>
    if t = "board_deleted" then
      if truthy (getField m "redirect") then some "/" else none
    else none
  | _ => none

end BoardCollaborationContext

/-! ## Fixtures used by concrete witnesses -/

/-- A concrete well-formed wire envelope. -/
def sampleEnvelope : JsValue :=
  .obj [("type", .str "card_created"), ("card", .obj [("id", .str "c1")])]

/-- A client whose socket is still in the `CONNECTING` state. -/
def connectingClient : ClientState :=
  { GlobalWebSocketClient.init with
      ws := some { readyState := ReadyState.CONNECTING, sentFrames := [] },
      isConnecting := true }

/-- A client whose socket is `OPEN`. -/
def openClient : ClientState :=
  { GlobalWebSocketClient.init with
      ws := some { readyState := ReadyState.OPEN, sentFrames := [] } }

/-! ## Claims -/

/-- C1: for every failed reconnect sequence of either WebSocket client, the
delay before attempt 1 is the base delay (1000 ms), the delay before attempt
k is `1000 * 2 ^ (k - 1)` (never above the 16000 ms reached at the last
scheduled attempt), and a successful open resets the attempt count to zero so
the next failure is scheduled at the base delay again. -/
theorem claim_C1_backoff_schedule :
    (∀ c : ClientState, c.reconnectDelay = 1000 →
        (GlobalWebSocketClient.scheduleReconnect (GlobalWebSocketClient.onopen c)).2 = 1000
      ∧ (BoardWebSocketClient.scheduleReconnect (BoardWebSocketClient.onopen c)).2 = 1000)
    ∧ (∀ (c : ClientState) (k : Nat), c.reconnectDelay = 1000 →
        c.reconnectAttempts = k - 1 → 1 ≤ k →
        (GlobalWebSocketClient.scheduleReconnect c).2 = 1000 * 2 ^ (k - 1)
      ∧ (BoardWebSocketClient.scheduleReconnect c).2 = 1000 * 2 ^ (k - 1))
    ∧ (∀ (c : ClientState) (code d : Nat), c.reconnectDelay = 1000 →
        c.maxReconnectAttempts = 5 →
        ((GlobalWebSocketClient.onclose c code).2 = some d →
          d = 1000 * 2 ^ c.reconnectAttempts ∧ d ≤ 16000)
      ∧ ((BoardWebSocketClient.onclose c code).2 = some d →
          d = 1000 * 2 ^ c.reconnectAttempts ∧ d ≤ 16000))
    ∧ (∀ c : ClientState,
        (GlobalWebSocketClient.onopen c).reconnectAttempts = 0
      ∧ (BoardWebSocketClient.onopen c).reconnectAttempts = 0) := by
  refine ⟨?_, ?_, ?_, ?_⟩
  · intro c h
    simp [GlobalWebSocketClient.scheduleReconnect, GlobalWebSocketClient.onopen,
      BoardWebSocketClient.scheduleReconnect, BoardWebSocketClient.onopen, h]
  · intro c k h hk h1
    constructor
    · simp [GlobalWebSocketClient.scheduleReconnect, h, hk]
    · simp [BoardWebSocketClient.scheduleReconnect, h, hk]
  · intro c code d h hmax
    constructor
    · intro hd
      by_cases hcond : code ≠ 1000 ∧ code ≠ 4001
          ∧ c.reconnectAttempts < c.maxReconnectAttempts
      · obtain ⟨h1, h2, h3⟩ := hcond
        simp [GlobalWebSocketClient.onclose, GlobalWebSocketClient.scheduleReconnect,
          h, h1, h2, h3] at hd
        subst hd
        have hpow : (2 : Nat) ^ c.reconnectAttempts ≤ 2 ^ 4 :=
          Nat.pow_le_pow_right (by norm_num) (by omega)
        exact ⟨rfl, le_trans (Nat.mul_le_mul (le_refl 1000) hpow) (by norm_num)⟩
      · simp only [GlobalWebSocketClient.onclose] at hd
        rw [if_neg hcond] at hd
        simp at hd
    · intro hd
      by_cases hcond : code ≠ 1000 ∧ code ≠ 4001 ∧ code ≠ 4003
          ∧ c.reconnectAttempts < c.maxReconnectAttempts
      · obtain ⟨h1, h2, h3, h4⟩ := hcond
        simp [BoardWebSocketClient.onclose, BoardWebSocketClient.scheduleReconnect,
          h, h1, h2, h3, h4] at hd
        subst hd
        have hpow : (2 : Nat) ^ c.reconnectAttempts ≤ 2 ^ 4 :=
          Nat.pow_le_pow_right (by norm_num) (by omega)
        exact ⟨rfl, le_trans (Nat.mul_le_mul (le_refl 1000) hpow) (by norm_num)⟩
      · simp only [BoardWebSocketClient.onclose] at hd
        rw [if_neg hcond] at hd
        simp at hd
  · intro c
    exact ⟨rfl, rfl⟩

/-- Witness for C1 at concrete inputs: a fresh client's first delay is
1000 ms, a client with two recorded failures is scheduled at 4000 ms, the
delay scheduled by `onclose` after three failures is 8000 ms and below the
16000 ms ceiling, and a successful open resets the attempt count. -/
theorem claim_C1_backoff_schedule_witness :
    (GlobalWebSocketClient.scheduleReconnect
        (GlobalWebSocketClient.onopen GlobalWebSocketClient.init)).2 = 1000
    ∧ (BoardWebSocketClient.scheduleReconnect
        { BoardWebSocketClient.init with reconnectAttempts := 2 }).2 = 1000 * 2 ^ (3 - 1)
    ∧ (8000 = 1000 * 2 ^ ({ GlobalWebSocketClient.init with
          reconnectAttempts := 3 } : ClientState).reconnectAttempts ∧ 8000 ≤ 16000)
    ∧ (GlobalWebSocketClient.onopen
        { GlobalWebSocketClient.init with reconnectAttempts := 4 }).reconnectAttempts = 0 := by
  refine ⟨(claim_C1_backoff_schedule.1 GlobalWebSocketClient.init rfl).1, ?_, ?_, ?_⟩
  · exact (claim_C1_backoff_schedule.2.1
      { BoardWebSocketClient.init with reconnectAttempts := 2 } 3 rfl rfl (by decide)).2
  · exact (claim_C1_backoff_schedule.2.2.1
      { GlobalWebSocketClient.init with reconnectAttempts := 3 } 1006 8000 rfl rfl).1
      (by decide)
  · exact (claim_C1_backoff_schedule.2.2.2
      { GlobalWebSocketClient.init with reconnectAttempts := 4 }).1

/-- C2: a `send` issued while no socket exists or the socket is not `OPEN`
is silently dropped by both clients: the client state (including every
socket's transport frames) is unchanged and the call merely records the
drop instead of raising. -/
theorem claim_C2_send_not_open_drops (c : ClientState) (m : JsValue)
    (h : ∀ s, c.ws = some s → s.readyState ≠ ReadyState.OPEN) :
    GlobalWebSocketClient.send c m = (c, true)
    ∧ BoardWebSocketClient.send c m = (c, true) := by
  constructor
  · cases hc : c.ws with
    | none => simp [GlobalWebSocketClient.send, hc]
    | some s => simp [GlobalWebSocketClient.send, hc, h s hc]
  · cases hc : c.ws with
    | none => simp [BoardWebSocketClient.send, hc]
    | some s => simp [BoardWebSocketClient.send, hc, h s hc]

/-- Witness for C2: sending on a client whose socket is still `CONNECTING`
drops the message and leaves the state unchanged. -/
theorem claim_C2_send_not_open_drops_witness :
    GlobalWebSocketClient.send connectingClient sampleEnvelope = (connectingClient, true)
    ∧ BoardWebSocketClient.send connectingClient sampleEnvelope = (connectingClient, true) :=
  claim_C2_send_not_open_drops connectingClient sampleEnvelope
    (fun s hs => by cases hs; decide)

/-- C3 counterexample: after five failed attempts, an abnormal transient
closure (code 1006) schedules no further reconnect in either client — the
controller does give up, so the maximum attempt count is a hard bound on
retrying, not mere UI reporting. -/
theorem claim_C3_counterexample :
    (GlobalWebSocketClient.onclose
      { GlobalWebSocketClient.init with reconnectAttempts := 5 } 1006).2 = none
    ∧ (BoardWebSocketClient.onclose
      { BoardWebSocketClient.init with reconnectAttempts := 5 } 1006).2 = none := by
  decide

/-- C3 amended: on an abnormal closure whose code is none of the terminal
codes (1000, 4001, 4003), a reconnect is scheduled exactly when the attempt
count is still below `maxReconnectAttempts` (5); at or above that bound the
controller stops retrying even for transient failures. -/
theorem claim_C3_amended_bounded_retry (c : ClientState) (code : Nat)
    (h1 : code ≠ 1000) (h2 : code ≠ 4001) (h3 : code ≠ 4003) :
    ((GlobalWebSocketClient.onclose c code).2 ≠ none
        ↔ c.reconnectAttempts < c.maxReconnectAttempts)
    ∧ ((BoardWebSocketClient.onclose c code).2 ≠ none
        ↔ c.reconnectAttempts < c.maxReconnectAttempts) := by
  by_cases hlt : c.reconnectAttempts < c.maxReconnectAttempts
  · constructor
    · simp [GlobalWebSocketClient.onclose, h1, h2, hlt]
    · simp [BoardWebSocketClient.onclose, h1, h2, h3, hlt]
  · constructor
    · simp [GlobalWebSocketClient.onclose, h1, h2, hlt]
    · simp [BoardWebSocketClient.onclose, h1, h2, h3, hlt]

/-- Witness for the amended C3: a fresh client (zero failed attempts)
reconnects on close code 1006 exactly because its attempt count is below the
bound. -/
theorem claim_C3_amended_bounded_retry_witness :
    ((GlobalWebSocketClient.onclose GlobalWebSocketClient.init 1006).2 ≠ none
        ↔ GlobalWebSocketClient.init.reconnectAttempts
            < GlobalWebSocketClient.init.maxReconnectAttempts)
    ∧ ((BoardWebSocketClient.onclose GlobalWebSocketClient.init 1006).2 ≠ none
        ↔ GlobalWebSocketClient.init.reconnectAttempts
            < GlobalWebSocketClient.init.maxReconnectAttempts) :=
  claim_C3_amended_bounded_retry GlobalWebSocketClient.init 1006
    (by decide) (by decide) (by decide)

/-- C4: a normal closure (code 1000) or an authentication/authorization
rejection (code 4001 for the global client; 4001 or 4003 for the board
client) is terminal: the `onclose` handler schedules no reconnect, whatever
the prior attempt count and connection history. -/
theorem claim_C4_terminal_closures (c : ClientState) (code : Nat) :
    (code = 1000 ∨ code = 4001 →
      (GlobalWebSocketClient.onclose c code).2 = none)
    ∧ (code = 1000 ∨ code = 4001 ∨ code = 4003 →
      (BoardWebSocketClient.onclose c code).2 = none) := by
  constructor
  · rintro (rfl | rfl) <;> simp [GlobalWebSocketClient.onclose]
  · rintro (rfl | rfl | rfl) <;> simp [BoardWebSocketClient.onclose]

/-- Witness for C4: with two failed attempts already recorded, a normal
closure leaves the global client terminal and an auth rejection (4003)
leaves the board client terminal. -/
theorem claim_C4_terminal_closures_witness :
    (GlobalWebSocketClient.onclose
      { GlobalWebSocketClient.init with reconnectAttempts := 2 } 1000).2 = none
    ∧ (BoardWebSocketClient.onclose
      { BoardWebSocketClient.init with reconnectAttempts := 2 } 4003).2 = none :=
  ⟨(claim_C4_terminal_closures
      { GlobalWebSocketClient.init with reconnectAttempts := 2 } 1000).1 (Or.inl rfl),
   (claim_C4_terminal_closures
      { BoardWebSocketClient.init with reconnectAttempts := 2 } 4003).2
      (Or.inr (Or.inr rfl))⟩

/-- C5: a received frame whose bytes do not decode to an envelope is dropped
by both clients' `onmessage` handlers: decoding yields the typed error
`none` instead of escaping the handler, the registered message handler is
not invoked, the error is logged, and the connection is not closed. -/
theorem claim_C5_malformed_frame_dropped (data : String)
    (h : JsValue.decode data = none) :
    GlobalWebSocketClient.onmessage data
        = { handlerCalls := [], errorLogged := true, closedSocket := false }
    ∧ BoardWebSocketClient.onmessage data
        = { handlerCalls := [], errorLogged := true, closedSocket := false } := by
  constructor
  · unfold GlobalWebSocketClient.onmessage
    rw [h]
  · unfold BoardWebSocketClient.onmessage
    rw [h]

/-- Witness for C5: the malformed frame `"["` is dropped with a logged error
and no handler call by both clients. -/
theorem claim_C5_malformed_frame_dropped_witness :
    GlobalWebSocketClient.onmessage "["
        = { handlerCalls := [], errorLogged := true, closedSocket := false }
    ∧ BoardWebSocketClient.onmessage "["
        = { handlerCalls := [], errorLogged := true, closedSocket := false } :=
  claim_C5_malformed_frame_dropped "[" rfl

/-- C6: for every valid envelope (a well-formed JSON object with a string
`type` field), decoding the wire serialization used by `send`
(`JSON.stringify`) with the deserialization applied to received frames
(`JSON.parse`) yields the envelope again. -/
theorem claim_C6_envelope_round_trip (e : JsValue)
    (_henv : JsValue.isEnvelope e = true) (hwf : JsValue.wf e = true) :
    JsValue.decode (JsValue.encode e) = some e :=
  JsValue.decode_encode e hwf

/-- Witness for C6: the concrete `card_created` envelope round-trips. -/
theorem claim_C6_envelope_round_trip_witness :
    JsValue.isEnvelope sampleEnvelope = true
    ∧ JsValue.wf sampleEnvelope = true
    ∧ JsValue.decode (JsValue.encode sampleEnvelope) = some sampleEnvelope :=
  ⟨by decide, by decide,
   claim_C6_envelope_round_trip sampleEnvelope (by decide) (by decide)⟩

/-- C7: every successfully decoded envelope is passed to the single
registered message handler exactly once, uniformly for every envelope — the
`onmessage` handler of both clients never inspects the envelope's `type`;
its result is `handlerCalls = [m]` whatever `m` is. -/
theorem claim_C7_handler_invoked_once (data : String) (m : JsValue)
    (h : JsValue.decode data = some m) :
    GlobalWebSocketClient.onmessage data
        = { handlerCalls := [m], errorLogged := false, closedSocket := false }
    ∧ BoardWebSocketClient.onmessage data
        = { handlerCalls := [m], errorLogged := false, closedSocket := false } := by
  constructor
  · unfold GlobalWebSocketClient.onmessage
    rw [h]
  · unfold BoardWebSocketClient.onmessage
    rw [h]

/-- Witness for C7: the encoded sample envelope is delivered to the handler
exactly once by both clients. -/
theorem claim_C7_handler_invoked_once_witness :
    GlobalWebSocketClient.onmessage (JsValue.encode sampleEnvelope)
        = { handlerCalls := [sampleEnvelope], errorLogged := false, closedSocket := false }
    ∧ BoardWebSocketClient.onmessage (JsValue.encode sampleEnvelope)
        = { handlerCalls := [sampleEnvelope], errorLogged := false, closedSocket := false } :=
  claim_C7_handler_invoked_once (JsValue.encode sampleEnvelope) sampleEnvelope
    (JsValue.decode_encode sampleEnvelope (by decide))

/-- C8: `handleMessage` navigates to the dashboard (`/`) exactly on a
`board_deleted` envelope whose `redirect` flag is truthy; a `board_deleted`
envelope without a truthy redirect flag, and every envelope of any other
type, cause no navigation. -/
theorem claim_C8_board_deleted_redirect (m : JsValue) :
    (BoardCollaborationContext.getField m "type" = some (.str "board_deleted") →
        BoardCollaborationContext.truthy
          (BoardCollaborationContext.getField m "redirect") = true →
        BoardCollaborationContext.handleMessageNav m = some "/")
    ∧ (BoardCollaborationContext.getField m "type" = some (.str "board_deleted") →
        BoardCollaborationContext.truthy
          (BoardCollaborationContext.getField m "redirect") = false →
        BoardCollaborationContext.handleMessageNav m = none)
    ∧ (∀ t, BoardCollaborationContext.getField m "type" = some (.str t) →
        t ≠ "board_deleted" →
        BoardCollaborationContext.handleMessageNav m = none) := by
  refine ⟨?_, ?_, ?_⟩
  · intro ht hr
    simp [BoardCollaborationContext.handleMessageNav, ht, hr]
  · intro ht hr
    simp [BoardCollaborationContext.handleMessageNav, ht, hr]
  · intro t ht hne
    simp [BoardCollaborationContext.handleMessageNav, ht, hne]

/-- Witness for C8: a `board_deleted` message with `redirect: true`
navigates to `/`; one without the flag does not; a `card_created` message
does not. -/
theorem claim_C8_board_deleted_redirect_witness :
    BoardCollaborationContext.handleMessageNav
      (.obj [("type", .str "board_deleted"), ("redirect", .bool true)]) = some "/"
    ∧ BoardCollaborationContext.handleMessageNav
      (.obj [("type", .str "board_deleted")]) = none
    ∧ BoardCollaborationContext.handleMessageNav
      (.obj [("type", .str "card_created"), ("redirect", .bool true)]) = none :=
  ⟨(claim_C8_board_deleted_redirect
      (.obj [("type", .str "board_deleted"), ("redirect", .bool true)])).1 rfl rfl,
   (claim_C8_board_deleted_redirect
      (.obj [("type", .str "board_deleted")])).2.1 rfl rfl,
   (claim_C8_board_deleted_redirect
      (.obj [("type", .str "card_created"), ("redirect", .bool true)])).2.2
      "card_created" rfl (by decide)⟩

/-- C9: `connect()` is idempotent while a connection attempt is in progress
or the socket is already `OPEN`: it constructs no second `WebSocket` and
leaves the client state unchanged, in both clients. -/
theorem claim_C9_connect_idempotent (c : ClientState)
    (h : c.isConnecting = true
        ∨ ∃ s, c.ws = some s ∧ s.readyState = ReadyState.OPEN) :
    GlobalWebSocketClient.connect c = (c, false)
    ∧ BoardWebSocketClient.connect c = (c, false) := by
  rcases h with h | ⟨s, hs, hopen⟩
  · constructor
    · simp [GlobalWebSocketClient.connect, h]
    · simp [BoardWebSocketClient.connect, h]
  · constructor
    · simp [GlobalWebSocketClient.connect, GlobalWebSocketClient.isConnected, hs, hopen]
    · simp [BoardWebSocketClient.connect, BoardWebSocketClient.wsOpen, hs, hopen]

/-- Witness for C9: calling `connect` on a client whose socket is `OPEN`
returns the state unchanged and creates no socket. -/
theorem claim_C9_connect_idempotent_witness :
    GlobalWebSocketClient.connect openClient = (openClient, false)
    ∧ BoardWebSocketClient.connect openClient = (openClient, false) :=
  claim_C9_connect_idempotent openClient
    (Or.inr ⟨{ readyState := ReadyState.OPEN, sentFrames := [] }, rfl, rfl⟩)

/-- C10: the board client is terminal on close codes 1000, 4001 and 4003
while the global client is terminal only on 1000 and 4001 — any other code
(attempt budget permitting) schedules a reconnect, so on close code 4003 the
global (notification) client schedules a reconnect while the board client
does not. -/
theorem claim_C10_terminal_code_sets (c : ClientState) :
    ((BoardWebSocketClient.onclose c 1000).2 = none
      ∧ (BoardWebSocketClient.onclose c 4001).2 = none
      ∧ (BoardWebSocketClient.onclose c 4003).2 = none)
    ∧ ((GlobalWebSocketClient.onclose c 1000).2 = none
      ∧ (GlobalWebSocketClient.onclose c 4001).2 = none)
    ∧ (∀ code, code ≠ 1000 → code ≠ 4001 →
        c.reconnectAttempts < c.maxReconnectAttempts →
        (GlobalWebSocketClient.onclose c code).2 ≠ none)
    ∧ (∀ code, code ≠ 1000 → code ≠ 4001 → code ≠ 4003 →
        c.reconnectAttempts < c.maxReconnectAttempts →
        (BoardWebSocketClient.onclose c code).2 ≠ none)
    ∧ (c.reconnectAttempts < c.maxReconnectAttempts →
        (GlobalWebSocketClient.onclose c 4003).2 ≠ none
      ∧ (BoardWebSocketClient.onclose c 4003).2 = none) := by
  refine ⟨⟨?_, ?_, ?_⟩, ⟨?_, ?_⟩, ?_, ?_, ?_⟩
  · simp [BoardWebSocketClient.onclose]
  · simp [BoardWebSocketClient.onclose]
  · simp [BoardWebSocketClient.onclose]
  · simp [GlobalWebSocketClient.onclose]
  · simp [GlobalWebSocketClient.onclose]
  · intro code h1 h2 hlt
    simp [GlobalWebSocketClient.onclose, h1, h2, hlt]
  · intro code h1 h2 h3 hlt
    simp [BoardWebSocketClient.onclose, h1, h2, h3, hlt]
  · intro hlt
    constructor
    · simp [GlobalWebSocketClient.onclose, hlt]
    · simp [BoardWebSocketClient.onclose]

/-- Witness for C10: on a fresh client, close code 4003 makes the global
client schedule a reconnect while the board client schedules none. -/
theorem claim_C10_terminal_code_sets_witness :
    (GlobalWebSocketClient.onclose GlobalWebSocketClient.init 4003).2 ≠ none
    ∧ (BoardWebSocketClient.onclose GlobalWebSocketClient.init 4003).2 = none
    ∧ (GlobalWebSocketClient.onclose GlobalWebSocketClient.init 1006).2 ≠ none :=
  ⟨((claim_C10_terminal_code_sets GlobalWebSocketClient.init).2.2.2.2 (by decide)).1,
   ((claim_C10_terminal_code_sets GlobalWebSocketClient.init).2.2.2.2 (by decide)).2,
   (claim_C10_terminal_code_sets GlobalWebSocketClient.init).2.2.1 1006
     (by decide) (by decide) (by decide)⟩
